import Mathlib

/-!
Shallow embedding of `src/src/main.rs` (crate `drifter`): a 2D car-physics
simulation.  The Rust code computes with `f64`; the embedding uses exact real
arithmetic (`ℝ`), the standard idealisation of the floating-point program.
The `nalgebra` collaborator types are embedded as follows:

* `Vector2<f64>` / `Point2<f64>`  ↦  `Vec2` (a pair of reals; `nalgebra`
  points and vectors have identical componentwise arithmetic, so one type
  serves for both);
* `Rotation2<f64>`  ↦  `Rotation2`, stored as its angle.  A `Rotation2` in
  `nalgebra` is the matrix `[[cos θ, -sin θ], [sin θ, cos θ]]`; multiplying
  two rotations multiplies the matrices, which adds the angles; `inverse`
  transposes the matrix, which negates the angle; applying a rotation to a
  vector is the matrix-vector product, written out componentwise in
  `Rotation2.act`; `magnitude` is `sqrt (x² + y²)`; `lerp a b t` is
  `a * (1 - t) + b * t`.
-/

namespace Drifter

noncomputable section

/-- A 2D vector (or point) of reals, embedding `nalgebra`'s
`Vector2<f64>` / `Point2<f64>`. -/
@[ext]
structure Vec2 where
  x : ℝ
  y : ℝ

instance : Add Vec2 := ⟨fun a b => ⟨a.x + b.x, a.y + b.y⟩⟩

instance : Sub Vec2 := ⟨fun a b => ⟨a.x - b.x, a.y - b.y⟩⟩

instance : Zero Vec2 := ⟨⟨0, 0⟩⟩

instance : SMul ℝ Vec2 := ⟨fun t v => ⟨t * v.x, t * v.y⟩⟩

instance : HDiv Vec2 ℝ Vec2 := ⟨fun v t => ⟨v.x / t, v.y / t⟩⟩

@[simp] theorem Vec2.add_def (a b : Vec2) : a + b = ⟨a.x + b.x, a.y + b.y⟩ := rfl

@[simp] theorem Vec2.sub_def (a b : Vec2) : a - b = ⟨a.x - b.x, a.y - b.y⟩ := rfl

@[simp] theorem Vec2.zero_def : (0 : Vec2) = ⟨0, 0⟩ := rfl

@[simp] theorem Vec2.smul_def (t : ℝ) (v : Vec2) : t • v = ⟨t * v.x, t * v.y⟩ := rfl

@[simp] theorem Vec2.div_def (v : Vec2) (t : ℝ) : v / t = ⟨v.x / t, v.y / t⟩ := rfl

/-- `nalgebra`'s `Vector2::magnitude`: `sqrt (x² + y²)`. -/
def Vec2.magnitude (v : Vec2) : ℝ := Real.sqrt (v.x ^ 2 + v.y ^ 2)

/-- `nalgebra`'s `Vector2::lerp`: `self * (1 - t) + rhs * t`. -/
def Vec2.lerp (a b : Vec2) (t : ℝ) : Vec2 :=
  ⟨a.x * (1 - t) + b.x * t, a.y * (1 - t) + b.y * t⟩

/-- Distance between two points: the magnitude of their difference. -/
def Vec2.dist (a b : Vec2) : ℝ := (a - b).magnitude

/-- `nalgebra`'s `Rotation2<f64>`, the matrix
`[[cos θ, -sin θ], [sin θ, cos θ]]`, stored by its angle `θ`. -/
@[ext]
structure Rotation2 where
  angle : ℝ

/-- `Rotation2::new(θ)`. -/
def Rotation2.new (θ : ℝ) : Rotation2 := ⟨θ⟩

/-- Composition `r1 * r2` of rotations (matrix product adds the angles). -/
def Rotation2.comp (r1 r2 : Rotation2) : Rotation2 := ⟨r1.angle + r2.angle⟩

/-- `Rotation2::inverse` (matrix transpose negates the angle). -/
def Rotation2.inverse (r : Rotation2) : Rotation2 := ⟨-r.angle⟩

/-- Matrix-vector product `r * v`:
`[[cos θ, -sin θ], [sin θ, cos θ]] * [x, y]`. -/
def Rotation2.act (r : Rotation2) (v : Vec2) : Vec2 :=
  ⟨Real.cos r.angle * v.x - Real.sin r.angle * v.y,
   Real.sin r.angle * v.x + Real.cos r.angle * v.y⟩

/-- The `Car` struct of `main.rs`. -/
@[ext]
structure Car where
  dimensions : Vec2
  pos : Vec2
  rotation : Rotation2
  velocity : Vec2
  wheel_speed : ℝ
  acceleration : ℝ
  max_speed : ℝ

/-- The `CarSteering` enum. -/
inductive CarSteering where
  | left
  | right
  | none
deriving DecidableEq

/-- The `CarPedal` enum. -/
inductive CarPedal where
  | forward
  | backward
  | none
deriving DecidableEq

/-- `Car::new()`. -/
def Car.new : Car where
  dimensions := ⟨50, 100⟩
  pos := ⟨1000, 700⟩
  rotation := Rotation2.new 0
  velocity := 0
  wheel_speed := 0
  max_speed := 1
  acceleration := 0.1

/-- `Car::center()`: `self.pos + self.dimensions / 2.`. -/
def Car.center (c : Car) : Vec2 := c.pos + c.dimensions / (2 : ℝ)

/-- Rust `f64::clamp(lo, hi)` (for `lo ≤ hi` and finite inputs):
`lo` if `x < lo`, `hi` if `x > hi`, else `x`. -/
def clampR (x lo hi : ℝ) : ℝ := max lo (min x hi)

/-- The pedal branch of `Car::update` (lines 91–104): Forward adds
`acceleration` and clamps to `[-5, max_speed]`; Backward multiplies
`wheel_speed` by `0.5` and snaps to `0` when the result is `< 0.1`. -/
def Car.driveStep (c : Car) (pedal : CarPedal) : Car :=
  match pedal with
  | .forward =>
      let ws := c.wheel_speed + c.acceleration
      let max_backwards_speed : ℝ := -5
      { c with wheel_speed := clampR ws max_backwards_speed c.max_speed }
  | .backward =>
      let ws := c.wheel_speed * 0.5
      { c with wheel_speed := if ws < 0.1 then 0 else ws }
  | .none => c

/-- The steering branch of `Car::update` (lines 106–113): shift `pos` back by
`dimensions / 2`, compose `rotation` with `Rotation2::new(±0.005 *
rotation_strength)` where `rotation_strength = (rotation * velocity)
.magnitude().abs()`, then shift `pos` forward by `dimensions / 2`. -/
def Car.steerStep (c : Car) (steering : CarSteering) : Car :=
  let pos1 := c.pos - c.dimensions / (2 : ℝ)
  let rotation_strength := |(c.rotation.act c.velocity).magnitude|
  let rot :=
    match steering with
    | .left => c.rotation.comp (Rotation2.new (-0.005 * rotation_strength))
    | .right => c.rotation.comp (Rotation2.new (0.005 * rotation_strength))
    | .none => c.rotation
  { c with pos := pos1 + c.dimensions / (2 : ℝ), rotation := rot }

/-- The friction / velocity / integration tail of `Car::update`
(lines 115–128): move `velocity` to the local frame, subtract `wheel_speed`
from the local `y`, scale `wheel_speed` by `0.98 - 0.02`, the local `y` by
`1 - 0.02` and the local `x` by `1 - 0.05`, rotate back, and add the new
velocity to `pos`. -/
def Car.frictionStep (c : Car) : Car :=
  let local_velocity := c.rotation.inverse.act c.velocity
  let vertical_friction : ℝ := 0.02
  let ly0 := local_velocity.y - c.wheel_speed
  let ws := c.wheel_speed * (0.98 - vertical_friction)
  let ly := ly0 * (1 - vertical_friction)
  let horizontal_friction : ℝ := 0.05
  let lx := local_velocity.x * (1 - horizontal_friction)
  let vel := c.rotation.act ⟨lx, ly⟩
  { c with velocity := vel, wheel_speed := ws, pos := c.pos + vel }

/-- `Car::update(pedal, steering)`: drive input, then steering, then
friction / integration, in source order. -/
def Car.update (c : Car) (pedal : CarPedal) (steering : CarSteering) : Car :=
  ((c.driveStep pedal).steerStep steering).frictionStep

/-- The `Camera` struct of `main.rs`. -/
@[ext]
structure Camera where
  pos : Vec2

/-- `Camera::new()`. -/
def Camera.new : Camera where
  pos := ⟨1000, 700⟩

/-- `Camera::update(car)`: `pos = pos.lerp(car.center(), 0.2)`. -/
def Camera.update (cam : Camera) (car : Car) : Camera where
  pos := Vec2.lerp cam.pos car.center 0.2

end

/-- The SDL keycodes the program inspects; every other keycode is `other`. -/
inductive Keycode where
  | escape
  | q
  | other
deriving DecidableEq

/-- The SDL events the program inspects: `Quit`, `KeyDown { keycode }`
(with its `Option<Keycode>` payload), and anything else. -/
inductive Event where
  | quit
  | keyDown (keycode : Option Keycode)
  | other
deriving DecidableEq

/-- The per-tick held-key snapshot: `is_scancode_pressed` for W/A/S/D. -/
structure KeyState where
  w : Bool
  a : Bool
  s : Bool
  d : Bool
deriving DecidableEq

/-- The event poll loop of `Level::update` (lines 180–189): returns `true`
(the Rust code returns `Err(())`) as soon as it sees `Quit` or a key-down of
Escape or Q; all other events are skipped. -/
def pollEvents : List Event → Bool
  | [] => false
  | e :: rest =>
      match e with
      | .quit => true
      | .keyDown (some .escape) => true
      | .keyDown (some .q) => true
      | _ => pollEvents rest

/-- Spec-level predicate: the events that make the poll loop request
termination (`Quit`, or a key-down of Escape or Q). -/
def isQuitEvent : Event → Bool
  | .quit => true
  | .keyDown (some .escape) => true
  | .keyDown (some .q) => true
  | _ => false

/-- The pedal decode of `Level::update` (lines 193–199). -/
def decodePedal (key_state : KeyState) : CarPedal :=
  if key_state.w then .forward
  else if key_state.s then .backward
  else .none

/-- The steering decode of `Level::update` (lines 200–210). -/
def decodeSteering (key_state : KeyState) : CarSteering :=
  if key_state.a && !key_state.d then .left
  else if key_state.d && !key_state.a then .right
  else .none

noncomputable section

/-- The `Level` struct of `main.rs`. -/
structure Level where
  car : Car
  camera : Camera

/-- `Level::new()`. -/
def Level.new : Level where
  car := Car.new
  camera := Camera.new

/-- `Level::update` (lines 179–216).  The Rust method mutates `self` and
returns `Result<Option<Level>, ()>`; the embedding returns the result signal
paired with the post-call state.  A quit-ish event yields `Except.error ()`
with the state untouched; otherwise the car is updated with the decoded
intents, then the camera, and the call returns `Ok(None)`. -/
def Level.update (l : Level) (events : List Event) (key_state : KeyState) :
    Except Unit (Option Level) × Level :=
  if pollEvents events then (.error (), l)
  else
    let pedal := decodePedal key_state
    let steering := decodeSteering key_state
    let car := l.car.update pedal steering
    let camera := l.camera.update car
    (.ok Option.none, { car := car, camera := camera })

/-- Iterated camera tracking of a fixed car: `n` calls of `Camera::update`. -/
def camIter (car : Car) (cam : Camera) : ℕ → Camera
  | 0 => cam
  | n + 1 => (camIter car cam n).update car

end

/-! ## Helper lemmas -/

theorem Rotation2.act_zero (r : Rotation2) : r.act 0 = 0 := by
  simp [Rotation2.act]

theorem Vec2.magnitude_zero : (0 : Vec2).magnitude = 0 := by
  simp [Vec2.magnitude]

theorem Car.steerStep_pos (c : Car) (s : CarSteering) : (c.steerStep s).pos = c.pos := by
  ext <;> simp [Car.steerStep]

theorem Car.steerStep_velocity (c : Car) (s : CarSteering) :
    (c.steerStep s).velocity = c.velocity := rfl

theorem Car.steerStep_wheel_speed (c : Car) (s : CarSteering) :
    (c.steerStep s).wheel_speed = c.wheel_speed := rfl

theorem pollEvents_cons (e : Event) (rest : List Event) :
    pollEvents (e :: rest) = (isQuitEvent e || pollEvents rest) := by
  rcases e with _ | (_ | k) | _
  · rfl
  · rfl
  · rcases k with _ | _ | _ <;> rfl
  · rfl

theorem pollEvents_of_mem (evs : List Event)
    (h : Event.quit ∈ evs ∨ Event.keyDown (some .escape) ∈ evs ∨
      Event.keyDown (some .q) ∈ evs) :
    pollEvents evs = true := by
  induction evs with
  | nil => simp at h
  | cons e rest ih =>
      rw [pollEvents_cons]
      rcases h with h | h | h <;> rcases List.mem_cons.mp h with rfl | hm
      · simp [isQuitEvent]
      · simp [ih (Or.inl hm)]
      · simp [isQuitEvent]
      · simp [ih (Or.inr (Or.inl hm))]
      · simp [isQuitEvent]
      · simp [ih (Or.inr (Or.inr hm))]

theorem Rotation2.act_normSq (r : Rotation2) (v : Vec2) :
    (r.act v).x ^ 2 + (r.act v).y ^ 2 = v.x ^ 2 + v.y ^ 2 := by
  show (Real.cos r.angle * v.x - Real.sin r.angle * v.y) ^ 2 +
      (Real.sin r.angle * v.x + Real.cos r.angle * v.y) ^ 2 = v.x ^ 2 + v.y ^ 2
  linear_combination (v.x ^ 2 + v.y ^ 2) * Real.sin_sq_add_cos_sq r.angle

theorem Vec2.normSq_pos (v : Vec2) (h : v ≠ 0) : 0 < v.x ^ 2 + v.y ^ 2 := by
  rcases (add_nonneg (sq_nonneg v.x) (sq_nonneg v.y)).eq_or_lt with h0 | h0
  · exfalso
    apply h
    have hx : v.x = 0 := by nlinarith [sq_nonneg v.x, sq_nonneg v.y]
    have hy : v.y = 0 := by nlinarith [sq_nonneg v.x, sq_nonneg v.y]
    ext <;> simp [hx, hy]
  · exact h0

theorem Vec2.magnitude_smul (t : ℝ) (ht : 0 ≤ t) (v : Vec2) :
    (t • v).magnitude = t * v.magnitude := by
  unfold Vec2.magnitude
  have h : (t • v).x ^ 2 + (t • v).y ^ 2 = t ^ 2 * (v.x ^ 2 + v.y ^ 2) := by
    simp
    ring
  rw [h, Real.sqrt_mul (sq_nonneg t), Real.sqrt_sq ht]

theorem Car.driveStep_max_speed (c : Car) (p : CarPedal) :
    (c.driveStep p).max_speed = c.max_speed := by
  cases p <;> rfl

/-- When `wheel_speed = 0` and the velocity is nonzero, one friction pass
strictly shrinks the velocity magnitude (local components scale by `0.95`
and `0.98`, and the rotations preserve the norm). -/
theorem Car.frictionStep_mag_lt (c : Car) (hw : c.wheel_speed = 0) (hv : c.velocity ≠ 0) :
    c.frictionStep.velocity.magnitude < c.velocity.magnitude := by
  show (c.rotation.act
      ⟨(c.rotation.inverse.act c.velocity).x * (1 - 0.05),
       ((c.rotation.inverse.act c.velocity).y - c.wheel_speed) * (1 - 0.02)⟩).magnitude <
    c.velocity.magnitude
  unfold Vec2.magnitude
  apply Real.sqrt_lt_sqrt (by positivity)
  rw [Rotation2.act_normSq]
  have hL := Rotation2.act_normSq c.rotation.inverse c.velocity
  have hpos := Vec2.normSq_pos c.velocity hv
  rw [hw, sub_zero]
  nlinarith [sq_nonneg (c.rotation.inverse.act c.velocity).x,
    sq_nonneg (c.rotation.inverse.act c.velocity).y]

/-! ## Claims -/

/-- C5: for every car state and steering input, the steering step of
`Car::update` (shift `pos` back by `dimensions/2`, compose the rotation,
shift `pos` forward by `dimensions/2`) leaves `center() = pos + dimensions/2`
unchanged (exactly, in the real-arithmetic model), even when the rotation
changes. -/
theorem C5_steer_center_invariant (c : Car) (s : CarSteering) :
    (c.steerStep s).center = c.center := by
  unfold Car.center
  rw [Car.steerStep_pos]
  rfl

/-- C6: with `velocity = (0,0)`, `Car::update` with Left or Right steering
leaves the rotation unchanged, because
`rotation_strength = |rotation * velocity| = 0`. -/
theorem C6_stationary_no_turn (c : Car) (p : CarPedal) (hv : c.velocity = 0) :
    (c.update p CarSteering.left).rotation = c.rotation ∧
    (c.update p CarSteering.right).rotation = c.rotation := by
  cases p <;> constructor <;>
    simp [Car.update, Car.driveStep, Car.steerStep, Car.frictionStep, hv,
      Rotation2.act, Vec2.magnitude, Rotation2.comp, Rotation2.new]

/-- C6 witness: a concrete stationary car (the initial one) does not turn. -/
theorem C6_stationary_no_turn_witness :
    (Car.new.update CarPedal.none CarSteering.left).rotation = Car.new.rotation ∧
    (Car.new.update CarPedal.none CarSteering.right).rotation = Car.new.rotation :=
  C6_stationary_no_turn Car.new CarPedal.none rfl

/-- C10: a fully at-rest car (`velocity = (0,0)`, `wheel_speed = 0`) is a
fixed point of `Car::update` with no pedal and no steering: every field is
left exactly unchanged. -/
theorem C10_rest_fixed_point (c : Car) (hv : c.velocity = 0) (hw : c.wheel_speed = 0) :
    c.update CarPedal.none CarSteering.none = c := by
  have hdrive : c.driveStep CarPedal.none = c := rfl
  unfold Car.update
  rw [hdrive]
  ext <;>
    simp [Car.steerStep, Car.frictionStep, hv, hw, Rotation2.act, Rotation2.inverse,
      Vec2.magnitude]

/-- C10 witness: the initial car is at rest and is fixed by a no-input tick. -/
theorem C10_rest_fixed_point_witness :
    Car.new.update CarPedal.none CarSteering.none = Car.new :=
  C10_rest_fixed_point Car.new rfl rfl

/-- C1 counterexample: from `wheel_speed = -0.4`, Backward halves it to
`-0.2`, whose absolute value is not `< 0.1` — yet the code snaps it to `0`
(the source compares the signed value `-0.2 < 0.1`), so the claimed
"snap iff `|wheel_speed| < 0.1`" and "`wheel_speed ≤ -0.1` is not snapped"
are false. -/
theorem C1_backward_snap_counterexample :
    ({ Car.new with wheel_speed := -0.4 : Car }.wheel_speed * 0.5 ≤ -0.1) ∧
    ¬ |{ Car.new with wheel_speed := -0.4 : Car }.wheel_speed * 0.5| < 0.1 ∧
    ({ Car.new with wheel_speed := -0.4 : Car }.driveStep CarPedal.backward).wheel_speed = 0 ∧
    ({ Car.new with wheel_speed := -0.4 : Car }.update CarPedal.backward
      CarSteering.none).wheel_speed = 0 := by
  refine ⟨?_, ?_, ?_, ?_⟩
  · show (-0.4 : ℝ) * 0.5 ≤ -0.1
    norm_num
  · show ¬ |(-0.4 : ℝ) * 0.5| < 0.1
    rw [abs_of_nonpos (by norm_num)]
    norm_num
  · show (if (-0.4 : ℝ) * 0.5 < 0.1 then (0 : ℝ) else (-0.4 : ℝ) * 0.5) = 0
    rw [if_pos (by norm_num)]
  · show (if (-0.4 : ℝ) * 0.5 < 0.1 then (0 : ℝ) else (-0.4 : ℝ) * 0.5) * (0.98 - 0.02) = 0
    rw [if_pos (by norm_num)]
    ring

/-- C1 amended: Backward first halves `wheel_speed`; the halved value is then
snapped to exactly `0` iff it is `< 0.1` as a signed comparison (so negative
halved values, including those `≤ -0.1`, are also snapped); the friction
stage then scales the surviving value by `0.98 - 0.02`. -/
theorem C1_backward_snap_amended (c : Car) (s : CarSteering) :
    (c.update CarPedal.backward s).wheel_speed =
      (if c.wheel_speed * 0.5 < 0.1 then 0 else c.wheel_speed * 0.5) * (0.98 - 0.02) := rfl

/-- C8: if the per-tick event stream contains `Quit` or a key-down of Escape
or Q, `Level::update` returns the terminate signal `Err(())` and leaves the
level (car and camera) exactly unchanged. -/
theorem C8_quit_terminates (l : Level) (evs : List Event) (ks : KeyState)
    (h : Event.quit ∈ evs ∨ Event.keyDown (some Keycode.escape) ∈ evs ∨
      Event.keyDown (some Keycode.q) ∈ evs) :
    l.update evs ks = (Except.error (), l) := by
  simp [Level.update, pollEvents_of_mem evs h]

/-- C8 witness: a single `Quit` event terminates the fresh level untouched. -/
theorem C8_quit_terminates_witness :
    Level.new.update [Event.quit] ⟨false, false, false, false⟩ =
      (Except.error (), Level.new) :=
  C8_quit_terminates Level.new [Event.quit] ⟨false, false, false, false⟩
    (Or.inl (List.mem_singleton.mpr rfl))

/-- C9: the pedal decode is `Forward` iff W is held (priority over S),
`Backward` iff S is held without W, `None` iff neither; the steering decode
is `Left` iff A-and-not-D, `Right` iff D-and-not-A, `None` iff A and D agree
(both or neither held). -/
theorem C9_intent_decode (ks : KeyState) :
    (decodePedal ks = CarPedal.forward ↔ ks.w = true) ∧
    (decodePedal ks = CarPedal.backward ↔ ks.w = false ∧ ks.s = true) ∧
    (decodePedal ks = CarPedal.none ↔ ks.w = false ∧ ks.s = false) ∧
    (decodeSteering ks = CarSteering.left ↔ ks.a = true ∧ ks.d = false) ∧
    (decodeSteering ks = CarSteering.right ↔ ks.d = true ∧ ks.a = false) ∧
    (decodeSteering ks = CarSteering.none ↔ ks.a = ks.d) := by
  obtain ⟨w, a, s, d⟩ := ks
  cases w <;> cases a <;> cases s <;> cases d <;> decide

/-- C2 counterexample: one Forward tick from the initial state leaves
`wheel_speed = 0.096`, not `0.1` — the friction stage scales the
post-drive-step value `0.1` by `0.98 - 0.02` before the call returns. -/
theorem C2_forward_scenario_counterexample :
    (Car.new.update CarPedal.forward CarSteering.none).wheel_speed = 0.096 ∧
    (Car.new.update CarPedal.forward CarSteering.none).wheel_speed ≠ 0.1 := by
  have h : (Car.new.update CarPedal.forward CarSteering.none).wheel_speed = 0.096 := by
    show clampR (0 + 0.1) (-5) 1 * (0.98 - 0.02) = 0.096
    unfold clampR
    rw [min_eq_left (by norm_num), max_eq_right (by norm_num)]
    norm_num
  exact ⟨h, by rw [h]; norm_num⟩

/-- C2 amended: from the initial state, one Forward tick with no steering
gives `wheel_speed = 0.1` after the drive step (and `0.096` after the
friction scaling at the end of the call), makes the local forward (y)
velocity `-0.1` before friction and exactly `-0.098` after the friction
scaling, leaves the world velocity equal to the local velocity
`(0, -0.098)` (the rotation is the identity), and decreases `pos.y` by
exactly `0.098` (the arithmetic is exact in the real-number model). -/
theorem C2_forward_scenario_amended :
    (Car.new.driveStep CarPedal.forward).wheel_speed = 0.1 ∧
    (((Car.new.driveStep CarPedal.forward).steerStep CarSteering.none).rotation.inverse.act
          ((Car.new.driveStep CarPedal.forward).steerStep CarSteering.none).velocity).y -
        ((Car.new.driveStep CarPedal.forward).steerStep CarSteering.none).wheel_speed = -0.1 ∧
    (Car.new.update CarPedal.forward CarSteering.none).wheel_speed = 0.096 ∧
    (Car.new.update CarPedal.forward CarSteering.none).velocity = ⟨0, -0.098⟩ ∧
    (Car.new.update CarPedal.forward CarSteering.none).pos = ⟨1000, 700 - 0.098⟩ := by
  have hclamp : clampR (0 + 0.1) (-5) 1 = 0.1 := by
    unfold clampR
    rw [min_eq_left (by norm_num), max_eq_right (by norm_num)]
    norm_num
  refine ⟨?_, ?_, ?_, ?_, ?_⟩
  · show clampR (0 + 0.1) (-5) 1 = 0.1
    exact hclamp
  · show ((Rotation2.new 0).inverse.act (0 : Vec2)).y - clampR (0 + 0.1) (-5) 1 = -0.1
    rw [hclamp]
    simp [Rotation2.inverse, Rotation2.act, Rotation2.new]
  · show clampR (0 + 0.1) (-5) 1 * (0.98 - 0.02) = 0.096
    rw [hclamp]
    norm_num
  · show (Rotation2.new 0).act
        ⟨((Rotation2.new 0).inverse.act (0 : Vec2)).x * (1 - 0.05),
         (((Rotation2.new 0).inverse.act (0 : Vec2)).y - clampR (0 + 0.1) (-5) 1) *
           (1 - 0.02)⟩ = ⟨0, -0.098⟩
    rw [hclamp]
    ext
    · simp [Rotation2.inverse, Rotation2.act, Rotation2.new]
    · simp [Rotation2.inverse, Rotation2.act, Rotation2.new]
      norm_num
  · show ((⟨1000, 700⟩ : Vec2) - (⟨50, 100⟩ : Vec2) / (2 : ℝ) + (⟨50, 100⟩ : Vec2) / (2 : ℝ)) +
        (Rotation2.new 0).act
          ⟨((Rotation2.new 0).inverse.act (0 : Vec2)).x * (1 - 0.05),
           (((Rotation2.new 0).inverse.act (0 : Vec2)).y - clampR (0 + 0.1) (-5) 1) *
             (1 - 0.02)⟩ = ⟨1000, 700 - 0.098⟩
    rw [hclamp]
    ext
    · simp [Rotation2.inverse, Rotation2.act, Rotation2.new]
    · simp [Rotation2.inverse, Rotation2.act, Rotation2.new]
      norm_num

/-- C3 counterexample: strict decrease of `|velocity|` under a no-input tick
fails without a precondition on `wheel_speed`: with `wheel_speed = 1` and the
small nonzero velocity `(0, 0.01)`, the drive-force injection
`local_velocity.y -= wheel_speed` makes the velocity magnitude grow. -/
theorem C3_friction_decay_counterexample :
    ({ Car.new with velocity := ⟨0, 0.01⟩, wheel_speed := 1 : Car }.velocity ≠ 0) ∧
    ¬ ({ Car.new with velocity := ⟨0, 0.01⟩, wheel_speed := 1 : Car }.update
          CarPedal.none CarSteering.none).velocity.magnitude <
        ({ Car.new with velocity := ⟨0, 0.01⟩, wheel_speed := 1 : Car }).velocity.magnitude := by
  constructor
  · show (⟨0, 0.01⟩ : Vec2) ≠ 0
    intro h
    rw [Vec2.zero_def] at h
    have h2 := congrArg Vec2.y h
    norm_num at h2
  · have hvel : ({ Car.new with velocity := ⟨0, 0.01⟩, wheel_speed := 1 : Car }.update
        CarPedal.none CarSteering.none).velocity = ⟨0, -0.9702⟩ := by
      show (Rotation2.new 0).act
          ⟨((Rotation2.new 0).inverse.act (⟨0, 0.01⟩ : Vec2)).x * (1 - 0.05),
           (((Rotation2.new 0).inverse.act (⟨0, 0.01⟩ : Vec2)).y - 1) * (1 - 0.02)⟩ =
        ⟨0, -0.9702⟩
      ext
      · simp [Rotation2.inverse, Rotation2.act, Rotation2.new]
      · simp [Rotation2.inverse, Rotation2.act, Rotation2.new]
        norm_num
    rw [hvel]
    show ¬ Vec2.magnitude ⟨0, -0.9702⟩ < Vec2.magnitude ⟨0, 0.01⟩
    unfold Vec2.magnitude
    apply not_lt.mpr
    apply Real.sqrt_le_sqrt
    norm_num

/-- C3 amended: with no pedal and no steering input, and `wheel_speed = 0`
(so the drive-force injection is inactive — without this precondition the
claim is false), a tick strictly decreases `|velocity|` whenever the velocity
is nonzero, and `wheel_speed` stays `0`, so the decrease holds tick over
tick under repetition. -/
theorem C3_friction_decay_amended (c : Car) (hw : c.wheel_speed = 0) (hv : c.velocity ≠ 0) :
    (c.update CarPedal.none CarSteering.none).velocity.magnitude <
      c.velocity.magnitude ∧
    (c.update CarPedal.none CarSteering.none).wheel_speed = 0 := by
  constructor
  · have h := Car.frictionStep_mag_lt (c.steerStep CarSteering.none)
      (by rw [Car.steerStep_wheel_speed]; exact hw)
      (by rw [Car.steerStep_velocity]; exact hv)
    rw [Car.steerStep_velocity] at h
    exact h
  · show c.wheel_speed * (0.98 - 0.02) = 0
    rw [hw]
    ring

/-- C3 witness: a concrete moving car with `wheel_speed = 0` slows down. -/
theorem C3_friction_decay_witness :
    ({ Car.new with velocity := ⟨1, 0⟩ : Car }.update CarPedal.none
        CarSteering.none).velocity.magnitude <
      ({ Car.new with velocity := ⟨1, 0⟩ : Car }).velocity.magnitude ∧
    ({ Car.new with velocity := ⟨1, 0⟩ : Car }.update CarPedal.none
        CarSteering.none).wheel_speed = 0 :=
  C3_friction_decay_amended { Car.new with velocity := ⟨1, 0⟩ } rfl
    (by simp [Vec2.zero_def, Vec2.mk.injEq])

/-- C4: the invariant `-5 ≤ wheel_speed ≤ max_speed` (with `max_speed = 1`)
holds initially and is preserved by `Car::update` for every pedal and
steering input; in particular Forward never drives `wheel_speed` above
`max_speed = 1`. -/
theorem C4_wheel_speed_invariant :
    (-5 ≤ Car.new.wheel_speed ∧ Car.new.wheel_speed ≤ Car.new.max_speed) ∧
    ∀ (c : Car) (p : CarPedal) (s : CarSteering), c.max_speed = 1 →
      -5 ≤ c.wheel_speed → c.wheel_speed ≤ c.max_speed →
      (c.update p s).max_speed = 1 ∧ -5 ≤ (c.update p s).wheel_speed ∧
        (c.update p s).wheel_speed ≤ (c.update p s).max_speed := by
  constructor
  · constructor <;> norm_num [Car.new]
  · intro c p s h1 h2 h3
    have hms : (c.update p s).max_speed = c.max_speed := by
      cases p <;> rfl
    have hws : (c.update p s).wheel_speed =
        (c.driveStep p).wheel_speed * (0.98 - 0.02) := by
      cases p <;> rfl
    have hb : -5 ≤ (c.driveStep p).wheel_speed ∧ (c.driveStep p).wheel_speed ≤ 1 := by
      cases p with
      | forward =>
          constructor
          · exact le_max_left _ _
          · show max (-5 : ℝ) (min (c.wheel_speed + c.acceleration) c.max_speed) ≤ 1
            rw [h1]
            exact max_le (by norm_num) (min_le_right _ _)
      | backward =>
          constructor
          · show -5 ≤ if c.wheel_speed * 0.5 < 0.1 then (0 : ℝ) else c.wheel_speed * 0.5
            split_ifs with h
            · norm_num
            · linarith
          · show (if c.wheel_speed * 0.5 < 0.1 then (0 : ℝ) else c.wheel_speed * 0.5) ≤ 1
            split_ifs with h
            · norm_num
            · linarith
      | none => exact ⟨h2, by rw [h1] at h3; exact h3⟩
    obtain ⟨hb1, hb2⟩ := hb
    rw [hms, hws, h1]
    refine ⟨rfl, by linarith, by linarith⟩

theorem Vec2.dist_nonneg (a b : Vec2) : 0 ≤ Vec2.dist a b :=
  Real.sqrt_nonneg _

theorem Camera.update_sub_center (cam : Camera) (car : Car) :
    (cam.update car).pos - car.center = (0.8 : ℝ) • (cam.pos - car.center) := by
  ext <;> simp [Camera.update, Vec2.lerp] <;> ring

theorem Camera.update_dist (cam : Camera) (car : Car) :
    Vec2.dist (cam.update car).pos car.center = 0.8 * Vec2.dist cam.pos car.center := by
  unfold Vec2.dist
  rw [Camera.update_sub_center, Vec2.magnitude_smul 0.8 (by norm_num)]

theorem camIter_dist (car : Car) (cam : Camera) (n : ℕ) :
    Vec2.dist (camIter car cam n).pos car.center =
      0.8 ^ n * Vec2.dist cam.pos car.center := by
  induction n with
  | zero => simp [camIter]
  | succ n ih =>
      show Vec2.dist ((camIter car cam n).update car).pos car.center = _
      rw [Camera.update_dist, ih]
      ring

/-- C7: `Camera::update(car)` sets `pos` to `lerp(pos, car.center(), 0.2)`,
i.e. `pos + 0.2 * (car.center() - pos)`; for a fixed car each update scales
the distance from `camera.pos` to the center by `0.8`, so iterated updates
move the camera monotonically closer and within any tolerance `ε > 0` from
some tick on (geometric decay `0.8 ^ n`). -/
theorem C7_camera_tracking (cam : Camera) (car : Car) :
    (cam.update car).pos = cam.pos + (0.2 : ℝ) • (car.center - cam.pos) ∧
    (∀ n : ℕ, Vec2.dist (camIter car cam (n + 1)).pos car.center =
        0.8 * Vec2.dist (camIter car cam n).pos car.center) ∧
    (∀ n : ℕ, Vec2.dist (camIter car cam (n + 1)).pos car.center ≤
        Vec2.dist (camIter car cam n).pos car.center) ∧
    ∀ ε : ℝ, 0 < ε → ∃ N : ℕ, ∀ n : ℕ, N ≤ n →
      Vec2.dist (camIter car cam n).pos car.center ≤ ε := by
  refine ⟨?_, ?_, ?_, ?_⟩
  · ext <;> simp [Camera.update, Vec2.lerp] <;> ring
  · intro n
    show Vec2.dist ((camIter car cam n).update car).pos car.center = _
    rw [Camera.update_dist]
  · intro n
    show Vec2.dist ((camIter car cam n).update car).pos car.center ≤ _
    rw [Camera.update_dist]
    linarith [Vec2.dist_nonneg (camIter car cam n).pos car.center]
  · intro ε hε
    rcases le_or_lt (Vec2.dist cam.pos car.center) 0 with hd | hd
    · refine ⟨0, fun n _ => ?_⟩
      have hd0 : Vec2.dist cam.pos car.center = 0 :=
        le_antisymm hd (Vec2.dist_nonneg _ _)
      rw [camIter_dist, hd0, mul_zero]
      linarith
    · obtain ⟨N, hN⟩ :=
        exists_pow_lt_of_lt_one (div_pos hε hd) (show (0.8 : ℝ) < 1 by norm_num)
      refine ⟨N, fun n hn => ?_⟩
      rw [camIter_dist]
      have h1 : (0.8 : ℝ) ^ n ≤ 0.8 ^ N :=
        pow_le_pow_of_le_one (by norm_num) (by norm_num) hn
      have h2 : (0.8 : ℝ) ^ N * Vec2.dist cam.pos car.center < ε :=
        (lt_div_iff₀ hd).mp hN
      have h3 := mul_le_mul_of_nonneg_right h1 (le_of_lt hd)
      linarith

/-- C7 witness: the camera-step formula at the initial camera and car, and
convergence within tolerance `1`. -/
theorem C7_camera_tracking_witness :
    (Camera.new.update Car.new).pos =
      Camera.new.pos + (0.2 : ℝ) • (Car.center Car.new - Camera.new.pos) ∧
    ∃ N : ℕ, ∀ n : ℕ, N ≤ n →
      Vec2.dist (camIter Car.new Camera.new n).pos (Car.center Car.new) ≤ 1 :=
  ⟨(C7_camera_tracking Camera.new Car.new).1,
   (C7_camera_tracking Camera.new Car.new).2.2.2 1 (by norm_num)⟩

/-- C4 witness: the invariant transfer applied to the initial car with the
Forward pedal. -/
theorem C4_wheel_speed_invariant_witness :
    (Car.new.update CarPedal.forward CarSteering.none).max_speed = 1 ∧
    -5 ≤ (Car.new.update CarPedal.forward CarSteering.none).wheel_speed ∧
    (Car.new.update CarPedal.forward CarSteering.none).wheel_speed ≤
      (Car.new.update CarPedal.forward CarSteering.none).max_speed :=
  C4_wheel_speed_invariant.2 Car.new CarPedal.forward CarSteering.none rfl
    (by norm_num [Car.new]) (by norm_num [Car.new])

end Drifter
